import Mathlib

/-!
Shallow embedding of the jobAnalyzer streaming front-end.

The repository's core logic lives in `src/frontend/src/App.jsx` (the canonical
variant, with progress tracking and PDF export), `src/frontend/src/StreamingChatInterface.jsx`,
`src/frontend/src/CurriculumAnalysis.jsx`, and a plain-HTML variant
(`src/unnamed/part_000`, an inline script using `lastCurriculum`).

JavaScript runtime values are modelled by `JSValue`; `JSON.parse` is external
library code and its outcome is modelled as `Option JSValue` (`none` = the
parse threw). Event delivery on a closed `EventSource` does not happen, which
the session step function models by ignoring events once `esOpen` is false.
-/

namespace JobAnalyzer

/-- Model of a JavaScript runtime value as produced by `JSON.parse` (plus
`undefined`, which property access on a missing field yields). Numbers are
modelled as integers (no float arithmetic occurs in the analysed code). -/
inductive JSValue where
  | undefined : JSValue
  | null : JSValue
  | bool : Bool → JSValue
  | num : Int → JSValue
  | str : String → JSValue
  | arr : List JSValue → JSValue
  | obj : List (String × JSValue) → JSValue

namespace JSValue

/-- Equality of runtime values, used to model `Array.prototype.includes`
(SameValueZero) and strict equality `===`. On primitive values this is exactly
the JavaScript comparison; arrays and objects are compared structurally here
(in JavaScript they compare by reference; every claim proved below only
compares primitive values, where the two notions agree). -/
def jsEq : JSValue → JSValue → Bool
  | .undefined, .undefined => true
  | .null, .null => true
  | .bool a, .bool b => a == b
  | .num a, .num b => a == b
  | .str a, .str b => a == b
  | .arr [], .arr [] => true
  | .arr (x :: xs), .arr (y :: ys) => jsEq x y && jsEq (.arr xs) (.arr ys)
  | .obj [], .obj [] => true
  | .obj ((k, v) :: xs), .obj ((k', v') :: ys) =>
      k == k' && jsEq v v' && jsEq (.obj xs) (.obj ys)
  | _, _ => false

/-- Strict equality `v === "k"` of a runtime value with a string literal. -/
def sEq (v : JSValue) (k : String) : Bool :=
  match v with
  | .str t => t == k
  | _ => false

/-- JavaScript truthiness. `undefined`, `null`, `false`, `0` and `""` are
falsy; every array and object is truthy. -/
def truthy : JSValue → Bool
  | .undefined => false
  | .null => false
  | .bool b => b
  | .num n => n != 0
  | .str s => s != ""
  | .arr _ => true
  | .obj _ => true

/-- JavaScript `a || b`: `a` if truthy, else `b`. -/
def jsOr (a b : JSValue) : JSValue := if a.truthy then a else b

/-- Property access `v.k`. On an object it looks the key up; on any other
non-null value (number, string, boolean, array) it yields `undefined`, as in
JavaScript. The analysed code only dereferences possibly-null/undefined
values through optional chaining (`?.`), whose null/undefined short-circuit
also yields `undefined`, so modelling those two cases as `undefined` here is
faithful at every call site; plain access on `null` (which throws in
JavaScript) is modelled explicitly by the caller. -/
def getField : JSValue → String → JSValue
  | .obj fields, k =>
      match fields.find? (fun p => p.1 == k) with
      | some p => p.2
      | none => .undefined
  | _, _ => .undefined

/-- `Array.isArray`. -/
def isArray : JSValue → Bool
  | .arr _ => true
  | _ => false

/-- `typeof v === "object"`: true for objects, arrays and `null`. -/
def typeofObject : JSValue → Bool
  | .null => true
  | .arr _ => true
  | .obj _ => true
  | _ => false

end JSValue

open JSValue

/-- `String.prototype.trim()`: strip leading and trailing whitespace.
(Defined by structural recursion over the character list so that concrete
instances compute; `String.trim` of core is extensionally the same but is
defined through `Substring` machinery that does not reduce.) -/
def jsTrim (s : String) : String :=
  String.mk
    (((s.data.dropWhile Char.isWhitespace).reverse.dropWhile
        Char.isWhitespace).reverse)

/-- The `msgType` strings used by `App.jsx` (`"text" | "markdown" | "list" |
"jobs" | "error"`). -/
inductive MsgType where
  | text : MsgType
  | markdown : MsgType
  | list : MsgType
  | jobs : MsgType
  | error : MsgType
deriving DecidableEq, Repr

/-- One element of the `messages` state array of `App.jsx`: the classified
timeline entry `{ type, step, content }`. Entries created in the `catch` and
`onerror` handlers carry no `step` property, i.e. `step = undefined`. -/
structure Msg where
  type : MsgType
  step : JSValue
  content : JSValue

/-- The `STEPS` catalog of `App.jsx`: ordered `{key, label}` pairs. -/
def STEPS : List (String × String) :=
  [ ("extracting_skills", "Analyzing your curriculum..."),
    ("skills_extracted", "Skills extracted"),
    ("identifying_roles", "Identifying relevant job roles..."),
    ("roles_identified", "Roles identified"),
    ("fetching_jobs", "Fetching relevant job listings..."),
    ("jobs_fetched", "Jobs fetched"),
    ("generating_summary", "Analyzing job requirements..."),
    ("summary_generated", "Job summary generated"),
    ("analyzing_gaps", "Analyzing skill gaps..."),
    ("gaps_analyzed", "Skill gaps analyzed"),
    ("generating_projects", "Generating project recommendations..."),
    ("major_project_generated", "Major project generated"),
    ("mini_projects_generated", "Mini projects generated"),
    ("complete", "Analysis complete!") ]

/-- `parsed.step` equals one of the three markdown-producing steps. -/
def mdStep (s : JSValue) : Bool :=
  s.sEq "summary_generated" || s.sEq "major_project_generated" ||
    s.sEq "mini_projects_generated"

/-- `parsed.step` equals one of the three list-producing steps. -/
def listStep (s : JSValue) : Bool :=
  s.sEq "skills_extracted" || s.sEq "roles_identified" || s.sEq "gaps_analyzed"

/-- The classification performed inline in `App.jsx`'s
`handleView.onmessage` on a successfully parsed, non-null payload: compute
`msgType` by the if/else chain, then the `content` expression of the appended
message object. -/
def classifyApp (parsed : JSValue) : Msg :=
  let step := parsed.getField "step"
  let data := parsed.getField "data"
  let msgType : MsgType :=
    if mdStep step then .markdown
    else if listStep step then .list
    else if step.sEq "jobs_fetched" then .jobs
    else if (parsed.getField "error").truthy then .error
    else .text
  let content : JSValue :=
    if msgType = .list then
      if data.isArray then data
      else jsOr (data.getField "missing_skills")
             (jsOr (data.getField "job_market_skills") (.arr []))
    else jsOr data (jsOr (parsed.getField "message") (parsed.getField "error"))
  { type := msgType, step := step, content := content }

/-- The `setProgress` updater of `App.jsx`, guarded by `if (parsed.step)`:
`prev.includes(parsed.step) ? prev : [...prev, parsed.step]`. -/
def updateProgress (prev : List JSValue) (step : JSValue) : List JSValue :=
  if step.truthy then
    if prev.any (fun x => jsEq x step) then prev else prev ++ [step]
  else prev

/-- Component state of `App.jsx` relevant to the session, together with the
observable parameters of the `EventSource` it owns: `esOpen` records whether
the current connection is open, `esParam` the `curriculum_text` query
parameter it was opened with. -/
structure AppState where
  curriculum : String
  submitted : Bool
  streaming : Bool
  messages : List Msg
  progress : List JSValue
  esOpen : Bool
  esParam : Option String

/-- Initial component state. -/
def initApp : AppState :=
  { curriculum := "", submitted := false, streaming := false, messages := [],
    progress := [], esOpen := false, esParam := none }

/-- Outcome of the `fetch` POST: a network-level throw or an HTTP status. -/
inductive PostResult where
  | netErr : String → PostResult
  | resp : Nat → PostResult

/-- `res.ok`: status in the inclusive range 200–299. -/
def respOk : PostResult → Bool
  | .netErr _ => false
  | .resp status => 200 ≤ status && status < 300

/-- `App.jsx`'s `handleSubmit`: guard on blank input, clear state, POST the
current curriculum, then mark submitted or record one error entry. The
returned flag is whether a job-creation request was issued at all. -/
def handleSubmit (st : AppState) (post : PostResult) : AppState × Bool :=
  if jsTrim st.curriculum = "" then (st, false)
  else
    let st1 : AppState :=
      { st with messages := [], progress := [], submitted := false,
                streaming := false }
    match post with
    | .netErr e =>
        ({ st1 with
             messages := [⟨.error, .undefined, .str ("Error: " ++ e)⟩] }, true)
    | .resp status =>
        if 200 ≤ status && status < 300 then
          ({ st1 with submitted := true }, true)
        else
          ({ st1 with
               messages :=
                 [⟨.error, .undefined,
                   .str ("POST failed: " ++ toString status)⟩] }, true)

/-- The textarea `onChange` handler (`setCurriculum`); the textarea is
`disabled={streaming}`, so no edit lands while streaming. -/
def setCurriculumApp (st : AppState) (s : String) : AppState :=
  if st.streaming then st else { st with curriculum := s }

/-- `App.jsx`'s `handleView`: clear messages and progress, set streaming, and
open a new `EventSource` parameterized by the CURRENT `curriculum` state.
The button is `disabled={!submitted || streaming}`. -/
def handleView (st : AppState) : AppState :=
  if st.submitted && !st.streaming then
    { st with messages := [], progress := [], streaming := true,
              esOpen := true, esParam := some st.curriculum }
  else st

/-- The error entry appended by the `catch` block of `onmessage`. -/
def parseErrorMsg : Msg := ⟨.error, .undefined, .str "Error parsing stream data."⟩

/-- The `catch` block of `onmessage`: append the fixed error entry (it has no
`step` property), close the `EventSource`, stop streaming. -/
def parseFailApp (st : AppState) : AppState :=
  { st with messages := st.messages ++ [parseErrorMsg],
            esOpen := false, streaming := false }

/-- The `try` body of `onmessage` on a successfully parsed, non-null payload:
append the classified entry, update progress, and on a terminal payload
(`step === "complete"` or a truthy `error` field) close the connection and
stop streaming. -/
def applyParsedApp (st : AppState) (parsed : JSValue) : AppState :=
  let m := classifyApp parsed
  let step := parsed.getField "step"
  let st1 := { st with messages := st.messages ++ [m],
                       progress := updateProgress st.progress step }
  if step.sEq "complete" || (parsed.getField "error").truthy then
    { st1 with esOpen := false, streaming := false }
  else st1

/-- `App.jsx`'s `eventSource.onmessage` handler. The argument is the result
of `JSON.parse(event.data)`: `none` when the parse threw. A parse result of
`null` also lands in the `catch` block, because `parsed.step` throws a
`TypeError` on `null`. Events are only delivered while the connection is
open. -/
def onmessageApp (st : AppState) (ev : Option JSValue) : AppState :=
  if !st.esOpen then st
  else
    match ev with
    | none => parseFailApp st
    | some .null => parseFailApp st
    | some parsed => applyParsedApp st parsed

/-- `App.jsx`'s `eventSource.onerror` handler. -/
def onerrorApp (st : AppState) : AppState :=
  if !st.esOpen then st
  else
    { st with
        messages := st.messages ++
          [⟨.error, .undefined, .str "[Stream ended or error occurred]"⟩],
        esOpen := false, streaming := false }

/-- Deliver a sequence of raw events in receipt order. -/
def processEvents (st : AppState) (evs : List (Option JSValue)) : AppState :=
  evs.foldl onmessageApp st

/-- JavaScript `Array.prototype.findIndex` specialised to a Boolean
predicate: 0-based index of the first match, `-1` if none. -/
def findIndexJS (p : α → Bool) : List α → Int
  | [] => -1
  | x :: xs =>
      if p x then 0
      else
        let r := findIndexJS p xs
        if r = -1 then -1 else r + 1

/-- `App.jsx`'s `currentStepIdx` computation:
`progress.length ? STEPS.findIndex(s => s.key === progress[progress.length - 1]) : 0`. -/
def currentStepIdx (progress : List JSValue) : Int :=
  match progress.getLast? with
  | none => 0
  | some last => findIndexJS (fun s => sEq last s.1) STEPS

/-! ### The plain-HTML variant (`src/unnamed/part_000`)

Its inline script keeps the submitted text in `lastCurriculum` and opens the
`EventSource` with that frozen value; the textarea's live value is read only
inside the submit handler. -/

/-- State of the plain-HTML variant: the textarea's current value, the
`lastCurriculum` variable, and the `curriculum_text` parameter of the last
`EventSource` opened by the view button. -/
structure P0State where
  curriculumField : String
  lastCurriculum : String
  esParam : Option String

/-- Initial state of the plain-HTML variant (`lastCurriculum = ""`). -/
def p0Init : P0State :=
  { curriculumField := "", lastCurriculum := "", esParam := none }

/-- Typing in the textarea. -/
def p0SetField (st : P0State) (s : String) : P0State :=
  { st with curriculumField := s }

/-- `submitBtn.onclick`: trims the textarea value, aborts when blank or when
the POST fails, and otherwise stores the trimmed text in `lastCurriculum`. -/
def p0Submit (st : P0State) (post : PostResult) : P0State :=
  let c := jsTrim st.curriculumField
  if c = "" then st
  else
    match post with
    | .netErr _ => st
    | .resp status =>
        if 200 ≤ status && status < 300 then { st with lastCurriculum := c }
        else st

/-- `viewBtn.onclick`: aborts when `lastCurriculum` is empty, else opens the
`EventSource` parameterized by `lastCurriculum` (not by the textarea). -/
def p0View (st : P0State) : P0State :=
  if st.lastCurriculum = "" then st
  else { st with esParam := some st.lastCurriculum }

/-! ### String coercion and the Timeline Exporter (`getAnalysisText`)

JavaScript string coercion (`String(v)`, template literals, `"" + v`):
`undefined → "undefined"`, `null → "null"`, numbers and booleans print,
arrays join their elements with `","` where `null`/`undefined` elements
become the empty string, plain objects give `"[object Object]"`. -/

mutual

/-- Coercion of one array element inside `Array.prototype.join`/`toString`:
`null` and `undefined` become the empty string, everything else coerces as
usual. -/
def jsElemStr : JSValue → String
  | .undefined => ""
  | .null => ""
  | .bool true => "true"
  | .bool false => "false"
  | .num n => toString n
  | .str s => s
  | .arr xs => jsElemsStr xs
  | .obj _ => "[object Object]"

/-- `Array.prototype.join(",")` over coerced elements. -/
def jsElemsStr : List JSValue → String
  | [] => ""
  | [v] => jsElemStr v
  | v :: vs => jsElemStr v ++ "," ++ jsElemsStr vs

end

/-- JavaScript string coercion of a value (`String(v)`). -/
def jsToStr : JSValue → String
  | .undefined => "undefined"
  | .null => "null"
  | .bool true => "true"
  | .bool false => "false"
  | .num n => toString n
  | .str s => s
  | .arr xs => jsElemsStr xs
  | .obj _ => "[object Object]"

/-- The character class of `content.replace(/[#*_`>-]/g, "")` in
`getAnalysisText`. -/
def mdStripChar (c : Char) : Bool :=
  c = '#' || c = '*' || c = '_' || c = Char.ofNat 96 || c = '>' || c = '-'

/-- `String.prototype.replace(/[#*_`>-]/g, "")`: drop every occurrence of
the six markup characters. -/
def stripMd (s : String) : String :=
  String.mk (s.data.filter (fun c => !mdStripChar c))

/-- The fixed header of the plain-text jobs table in `getAnalysisText`. -/
def tableHeader : String :=
  "Title | Company | Location | Source | Posted | Salary | Link\n" ++
    "----- | ------- | -------- | ------ | ------ | ------ | ----"

/-- `Array.prototype.join(sep)` on already-coerced strings (as used with the
fixed separators `" | "`, `"\n"` and `"\n\n---\n\n"` in `getAnalysisText`). -/
def joinStrs (sep : String) : List String → String
  | [] => ""
  | [s] => s
  | s :: rest => s ++ sep ++ joinStrs sep rest

/-- The guard of the jobs-table branch in `getAnalysisText`:
`msg.step === "jobs_fetched" && Array.isArray(msg.content) &&
msg.content.length > 0 && typeof msg.content[0] === "object"`. -/
def tableCond (m : Msg) : Bool :=
  m.step.sEq "jobs_fetched" &&
    match m.content with
    | .arr (x :: _) => x.typeofObject
    | _ => false

/-- One row of the plain-text jobs table: the seven field accesses joined
with `" | "`. Property access on `null` or `undefined` throws in JavaScript,
modelled by `none`; `Array.prototype.join` renders `undefined` fields as the
empty string. -/
def rowOfJob (job : JSValue) : Option String :=
  match job with
  | .null => none
  | .undefined => none
  | j => some (joinStrs " | "
      ([j.getField "title", j.getField "company", j.getField "location",
        j.getField "source_platform", j.getField "posted_date",
        j.getField "salary", j.getField "job_url"].map jsElemStr))

/-- The flattening of one timeline entry inside `getAnalysisText`'s `map`
callback, following the source's branch order: markdown, list, jobs table,
error, default text. `none` models a thrown `TypeError` (e.g. `.replace` on a
non-string, `.map` on a non-array, field access on a `null` row). -/
def flattenMsg (m : Msg) : Option String :=
  if m.type = .markdown then
    match m.content with
    | .str s => some (jsTrim (stripMd s))
    | _ => none
  else if m.type = .list then
    match m.content with
    | .arr xs =>
        some ((if m.step.truthy then jsToStr m.step ++ ":\n" else "") ++
          joinStrs "\n" (xs.map (fun item => "- " ++ jsToStr item)))
    | _ => none
  else if tableCond m then
    match m.content with
    | .arr jobs =>
        (jobs.mapM rowOfJob).map (fun rows =>
          (if m.step.truthy then jsToStr m.step ++ ":\n" else "") ++
            tableHeader ++ "\n" ++ joinStrs "\n" rows)
    | _ => none
  else if m.type = .error then
    some ("Error: " ++ jsToStr m.content)
  else
    some ((if m.step.truthy then jsToStr m.step ++ ": " else "") ++
      jsToStr m.content)

/-- The fixed separator joining flattened entries. -/
def flatSep : String := "\n\n---\n\n"

/-- `App.jsx`'s `getAnalysisText`: flatten every entry in timeline order and
join with the fixed separator; `none` models a `TypeError` thrown by a
malformed entry. -/
def getAnalysisText (msgs : List Msg) : Option String :=
  (msgs.mapM flattenMsg).map (joinStrs flatSep)

/-- `getAnalysisText` as invoked on the component state (it reads only the
`messages` array, never `streaming`/`submitted`). -/
def getAnalysisTextState (st : AppState) : Option String :=
  getAnalysisText st.messages

/-! ### Concrete values used by witnesses and counterexamples -/

/-- A state in the middle of a healthy streaming run: connection open. -/
def openSt : AppState :=
  { curriculum := "cv", submitted := true, streaming := true, messages := [],
    progress := [], esOpen := true, esParam := some "cv" }

/-- The job record of spec Scenario B: only `title` and `company` present. -/
def engineerRec : JSValue :=
  .obj [("title", .str "Engineer"), ("company", .str "Acme")]

/-- Scenario B event: `{step:"jobs_fetched", data:[{title, company}]}`. -/
def jobsEv1 : JSValue :=
  .obj [("step", .str "jobs_fetched"), ("data", .arr [engineerRec])]

/-- A `jobs_fetched` event whose data holds a record and a non-record. -/
def jobsEvMixed : JSValue :=
  .obj [("step", .str "jobs_fetched"), ("data", .arr [engineerRec, .num 5])]

/-- Scenario D event: `{error:"rate limited"}`. -/
def rateEv : JSValue := .obj [("error", .str "rate limited")]

/-- An event carrying an `error` field together with a catalog step and a
`message` field. -/
def mixedEv : JSValue :=
  .obj [("step", .str "skills_extracted"), ("error", .str "x"),
        ("message", .str "hi")]

/-! ### Helper lemmas -/

theorem sEq_iff (v : JSValue) (k : String) : v.sEq k = true ↔ v = .str k := by
  cases v <;> simp [JSValue.sEq]

theorem jsEq_str_iff (x : JSValue) (k : String) :
    jsEq x (.str k) = true ↔ x = .str k := by
  cases x <;> simp [jsEq]

theorem any_jsEq_iff (p : List JSValue) (k : String) :
    (p.any (fun x => jsEq x (.str k)) = true) ↔ (JSValue.str k) ∈ p := by
  rw [List.any_eq_true]
  constructor
  · rintro ⟨x, hx, he⟩
    rw [jsEq_str_iff] at he
    exact he ▸ hx
  · intro h
    exact ⟨_, h, (jsEq_str_iff _ _).mpr rfl⟩

/-- Events delivered on a released connection leave the state unchanged. -/
theorem onmessage_closed (st : AppState) (ev : Option JSValue)
    (h : st.esOpen = false) : onmessageApp st ev = st := by
  simp [onmessageApp, h]

/-- The `try` body always appends exactly the classified entry. -/
theorem applyParsed_messages (st : AppState) (v : JSValue) :
    (applyParsedApp st v).messages = st.messages ++ [classifyApp v] := by
  simp only [applyParsedApp]
  split <;> rfl

/-- The `try` body always updates progress by the `setProgress` rule. -/
theorem applyParsed_progress (st : AppState) (v : JSValue) :
    (applyParsedApp st v).progress
      = updateProgress st.progress (v.getField "step") := by
  simp only [applyParsedApp]
  split <;> rfl

/-- On an open connection, a parsed non-null payload is handled by the `try`
body. -/
theorem onmessage_open_some (st : AppState) (v : JSValue)
    (hopen : st.esOpen = true) (hv : v ≠ .null) :
    onmessageApp st (some v) = applyParsedApp st v := by
  cases v <;> simp [onmessageApp, hopen] at hv ⊢

/-- Every delivered event appends at the end of the timeline. -/
theorem onmessage_messages_tail (st : AppState) (ev : Option JSValue) :
    ∃ t, (onmessageApp st ev).messages = st.messages ++ t := by
  by_cases h : st.esOpen = false
  · exact ⟨[], by simp [onmessage_closed st ev h]⟩
  · rw [Bool.not_eq_false] at h
    cases ev with
    | none => exact ⟨[parseErrorMsg], by simp [onmessageApp, h, parseFailApp]⟩
    | some v =>
        by_cases hv : v = .null
        · subst hv
          exact ⟨[parseErrorMsg], by simp [onmessageApp, h, parseFailApp]⟩
        · rw [onmessage_open_some st v h hv]
          exact ⟨[classifyApp v], applyParsed_messages st v⟩

/-- The `try` body on a non-terminal payload: append the classified entry,
update progress, leave the connection and `streaming` untouched. -/
theorem applyParsed_nonterminal (st : AppState) (v : JSValue)
    (hstep : (v.getField "step").sEq "complete" = false)
    (herr : (v.getField "error").truthy = false) :
    applyParsedApp st v =
      { st with messages := st.messages ++ [classifyApp v],
                progress := updateProgress st.progress (v.getField "step") } := by
  simp [applyParsedApp, hstep, herr]

/-- The `try` body on a terminal payload: additionally close the connection
and stop streaming. -/
theorem applyParsed_terminal (st : AppState) (v : JSValue)
    (hterm : ((v.getField "step").sEq "complete"
        || (v.getField "error").truthy) = true) :
    applyParsedApp st v =
      { st with messages := st.messages ++ [classifyApp v],
                progress := updateProgress st.progress (v.getField "step"),
                esOpen := false, streaming := false } := by
  simp [applyParsedApp, hterm]

theorem joinStrs_cons_of_ne (sep s : String) (l : List String) (h : l ≠ []) :
    joinStrs sep (s :: l) = s ++ sep ++ joinStrs sep l := by
  match l with
  | [] => exact absurd rfl h
  | x :: xs => rfl

theorem joinStrs_append (sep : String) (l1 l2 : List String)
    (h1 : l1 ≠ []) (h2 : l2 ≠ []) :
    joinStrs sep (l1 ++ l2) = joinStrs sep l1 ++ sep ++ joinStrs sep l2 := by
  match l1 with
  | [] => exact absurd rfl h1
  | [x] =>
      rw [List.singleton_append, joinStrs_cons_of_ne sep x l2 h2]
      rfl
  | x :: y :: ys =>
      have ih := joinStrs_append sep (y :: ys) l2 (by simp) h2
      rw [List.cons_append,
        joinStrs_cons_of_ne sep x ((y :: ys) ++ l2) (by simp),
        joinStrs_cons_of_ne sep x (y :: ys) (by simp), ih]
      simp [String.append_assoc]

theorem findIndexJS_none (p : α → Bool) (l : List α)
    (h : ∀ x ∈ l, p x = false) : findIndexJS p l = -1 := by
  induction l with
  | nil => rfl
  | cons x xs ih =>
      have hx := h x (by simp)
      have hrest := ih (fun y hy => h y (by simp [hy]))
      simp [findIndexJS, hx, hrest]

/-! ### Claims -/

/-- C2 counterexample: the claim says a malformed event leaves the stream
running; in `App.jsx` the `catch` block closes the `EventSource` and clears
`streaming`, terminating the session. -/
theorem C2_counterexample :
    (onmessageApp openSt none).messages = [parseErrorMsg] ∧
    (onmessageApp openSt none).esOpen = false ∧
    (onmessageApp openSt none).streaming = false :=
  ⟨rfl, rfl, rfl⟩

/-- C2 (amended): a raw event whose body fails to parse produces exactly one
`kind=error` entry with the fixed diagnostic "Error parsing stream data." and
no step; nothing escapes the handler (it is a total function); but the
session does NOT continue: the connection is closed and streaming ends. -/
theorem C2_malformed_event (st : AppState) (h : st.esOpen = true) :
    onmessageApp st none
      = { st with messages := st.messages ++ [parseErrorMsg],
                  esOpen := false, streaming := false } ∧
    parseErrorMsg
      = ⟨.error, .undefined, .str "Error parsing stream data."⟩ :=
  ⟨by simp [onmessageApp, h, parseFailApp], rfl⟩

/-- C2 witness: the amended behaviour at the concrete open state. -/
theorem C2_malformed_event_witness :
    onmessageApp openSt none
      = { openSt with messages := [parseErrorMsg],
                      esOpen := false, streaming := false } := by
  have h := (C2_malformed_event openSt rfl).1
  simpa using h

/-- C4 counterexample: submit "A" (status 200), edit the field to "B", click
View Results: `App.jsx` opens the `EventSource` parameterized by the edited
"B", not the submitted "A" — the input is NOT frozen at submission time. -/
theorem C4_counterexample :
    (handleView (setCurriculumApp
        (handleSubmit { initApp with curriculum := "A" } (.resp 200)).1
        "B")).esParam = some "B" ∧
    ("B" : String) ≠ "A" :=
  ⟨rfl, by decide⟩

/-- C4 (amended): only the plain-HTML variant freezes the submitted text.
Its `lastCurriculum` stores the trimmed text of the last successful submit,
and the view button parameterizes the `EventSource` by `lastCurriculum`, so a
later edit `s` of the field does not affect which job is streamed. In
`App.jsx` (and `CurriculumAnalysis.jsx`) the stream is parameterized by the
live field value at view time instead. -/
theorem C4_input_frozen_p0 (st : P0State) (status : Nat) (s : String)
    (hne : jsTrim st.curriculumField ≠ "")
    (hok : 200 ≤ status) (hlt : status < 300) :
    (p0Submit st (.resp status)).lastCurriculum = jsTrim st.curriculumField ∧
    (p0View (p0SetField (p0Submit st (.resp status)) s)).esParam
      = some (jsTrim st.curriculumField) := by
  have hcond : (decide (200 ≤ status) && decide (status < 300)) = true := by
    simp [hok, hlt]
  have hsub : p0Submit st (.resp status)
      = { st with lastCurriculum := jsTrim st.curriculumField } := by
    simp [p0Submit, hne, hcond]
  refine ⟨by rw [hsub], ?_⟩
  rw [hsub]
  simp [p0SetField, p0View, hne]

/-- C4 witness: in the plain-HTML variant, submitting " A " and then editing
the field to "B" still streams the frozen trimmed "A". -/
theorem C4_input_frozen_p0_witness :
    (p0View (p0SetField
        (p0Submit { p0Init with curriculumField := " A " } (.resp 200))
        "B")).esParam = some "A" := by
  have h := (C4_input_frozen_p0 { p0Init with curriculumField := " A " }
    200 "B" (by decide) (by decide) (by decide)).2
  exact h

/-- C7: `seenSteps` (the `progress` array) is a strictly insertion-ordered
set: a step key is appended only on first occurrence; re-receiving a key
already present leaves the array (hence every recorded position) unchanged
and adds no duplicate; and the per-event update of `progress` is exactly
`updateProgress` applied to the event's step. -/
theorem C7_seenSteps_insertion_ordered :
    (∀ (p : List JSValue) (k : String),
      ((JSValue.str k) ∈ p → updateProgress p (.str k) = p) ∧
      (k ≠ "" → (JSValue.str k) ∉ p →
        updateProgress p (.str k) = p ++ [.str k]) ∧
      (p.Nodup → (updateProgress p (.str k)).Nodup)) ∧
    (∀ (st : AppState) (parsed : JSValue) (k : String),
      st.esOpen = true → parsed.getField "step" = .str k →
      (onmessageApp st (some parsed)).progress
        = updateProgress st.progress (.str k)) := by
  constructor
  · intro p k
    refine ⟨?_, ?_, ?_⟩
    · intro hmem
      unfold updateProgress
      by_cases ht : (JSValue.str k).truthy = true
      · rw [if_pos ht, if_pos ((any_jsEq_iff p k).mpr hmem)]
      · rw [if_neg ht]
    · intro hk hmem
      unfold updateProgress
      have ht : (JSValue.str k).truthy = true := by
        simp [JSValue.truthy, hk]
      have hany : ¬(p.any (fun x => jsEq x (.str k)) = true) := fun hc =>
        hmem ((any_jsEq_iff p k).mp hc)
      rw [if_pos ht, if_neg hany]
    · intro hnd
      unfold updateProgress
      by_cases ht : (JSValue.str k).truthy = true
      · by_cases hany : p.any (fun x => jsEq x (.str k)) = true
        · rw [if_pos ht, if_pos hany]
          exact hnd
        · rw [if_pos ht, if_neg hany]
          have hmem : (JSValue.str k) ∉ p := fun hc =>
            hany ((any_jsEq_iff p k).mpr hc)
          simp [List.nodup_append, hnd, hmem]
      · rw [if_neg ht]
        exact hnd
  · intro st parsed k hopen hstep
    have hv : parsed ≠ .null := by
      intro hc
      rw [hc] at hstep
      exact JSValue.noConfusion hstep
    rw [onmessage_open_some st parsed hopen hv, applyParsed_progress, hstep]

/-- C7 witness: a repeated key is a no-op, a fresh key is appended at the
end. -/
theorem C7_witness :
    updateProgress [JSValue.str "skills_extracted"] (.str "skills_extracted")
      = [JSValue.str "skills_extracted"] ∧
    updateProgress [JSValue.str "skills_extracted"] (.str "roles_identified")
      = [JSValue.str "skills_extracted", JSValue.str "roles_identified"] := by
  have h := C7_seenSteps_insertion_ordered.1
  refine ⟨(h _ "skills_extracted").1 (by simp), ?_⟩
  have h2 := (h [JSValue.str "skills_extracted"] "roles_identified").2.1
    (by decide) (by simp)
  exact h2

/-- C1 counterexample: `{step:"complete"}` classifies as `kind=text`, but
its recorded payload is `undefined` (the value of
`parsed.data || parsed.message || parsed.error` with all three fields
absent), not the empty string the claim states. -/
theorem C1_counterexample :
    (classifyApp (.obj [("step", .str "complete")])).type = .text ∧
    (classifyApp (.obj [("step", .str "complete")])).content = .undefined ∧
    (classifyApp (.obj [("step", .str "complete")])).content ≠ .str "" :=
  ⟨rfl, rfl, fun h => JSValue.noConfusion h⟩

/-- C1 (amended): classification follows the source's priority order: a
markdown step gives `kind=markdown`; else a list step gives `kind=list` with
the list payload rule (the data field if it is an array, else the first
truthy of its `missing_skills` / `job_market_skills` sub-fields, else an
empty array); else step `jobs_fetched` gives the table kind (`jobs`); else a
truthy `error` field gives `kind=error`; else `kind=text`. For every
non-list kind the recorded payload is the first truthy of the `data`,
`message` and `error` fields — `undefined` (not the empty string) when none
is present — stored as-is (string coercion happens only at render). The
step field is always copied onto the entry. -/
theorem C1_classification (parsed : JSValue) :
    ((classifyApp parsed).step = parsed.getField "step") ∧
    (mdStep (parsed.getField "step") = true →
      (classifyApp parsed).type = .markdown ∧
      (classifyApp parsed).content
        = jsOr (parsed.getField "data")
            (jsOr (parsed.getField "message") (parsed.getField "error"))) ∧
    (mdStep (parsed.getField "step") = false →
     listStep (parsed.getField "step") = true →
      (classifyApp parsed).type = .list ∧
      (classifyApp parsed).content
        = (if (parsed.getField "data").isArray then parsed.getField "data"
           else jsOr ((parsed.getField "data").getField "missing_skills")
             (jsOr ((parsed.getField "data").getField "job_market_skills")
               (.arr [])))) ∧
    (mdStep (parsed.getField "step") = false →
     listStep (parsed.getField "step") = false →
     (parsed.getField "step").sEq "jobs_fetched" = true →
      (classifyApp parsed).type = .jobs ∧
      (classifyApp parsed).content
        = jsOr (parsed.getField "data")
            (jsOr (parsed.getField "message") (parsed.getField "error"))) ∧
    (mdStep (parsed.getField "step") = false →
     listStep (parsed.getField "step") = false →
     (parsed.getField "step").sEq "jobs_fetched" = false →
     (parsed.getField "error").truthy = true →
      (classifyApp parsed).type = .error ∧
      (classifyApp parsed).content
        = jsOr (parsed.getField "data")
            (jsOr (parsed.getField "message") (parsed.getField "error"))) ∧
    (mdStep (parsed.getField "step") = false →
     listStep (parsed.getField "step") = false →
     (parsed.getField "step").sEq "jobs_fetched" = false →
     (parsed.getField "error").truthy = false →
      (classifyApp parsed).type = .text ∧
      (classifyApp parsed).content
        = jsOr (parsed.getField "data")
            (jsOr (parsed.getField "message") (parsed.getField "error"))) := by
  refine ⟨rfl, ?_, ?_, ?_, ?_, ?_⟩
  · intro h1
    refine ⟨?_, ?_⟩ <;> simp [classifyApp, h1]
  · intro h1 h2
    refine ⟨?_, ?_⟩ <;> simp [classifyApp, h1, h2]
  · intro h1 h2 h3
    refine ⟨?_, ?_⟩ <;> simp [classifyApp, h1, h2, h3]
  · intro h1 h2 h3 h4
    refine ⟨?_, ?_⟩ <;> simp [classifyApp, h1, h2, h3, h4]
  · intro h1 h2 h3 h4
    refine ⟨?_, ?_⟩ <;> simp [classifyApp, h1, h2, h3, h4]

/-- C1 witness: a summary event classifies as markdown with its raw data
payload. -/
theorem C1_classification_witness :
    (classifyApp (.obj [("step", .str "summary_generated"),
        ("data", .str "hi")])).type = .markdown ∧
    (classifyApp (.obj [("step", .str "summary_generated"),
        ("data", .str "hi")])).content = .str "hi" := by
  have h := (C1_classification (.obj [("step", .str "summary_generated"),
    ("data", .str "hi")])).2.1 rfl
  exact ⟨h.1, h.2⟩

/-- C3 counterexample: an event carrying an error field together with
`step:"skills_extracted"` and a message field appends a `kind=list` entry
(with an empty-array payload), not the claimed `kind=error` entry with the
error field's text — though it does terminate the stream. -/
theorem C3_counterexample :
    ((onmessageApp openSt (some mixedEv)).messages.map Msg.type
        = [MsgType.list]) ∧
    (onmessageApp openSt (some mixedEv)).esOpen = false :=
  ⟨rfl, rfl⟩

/-- C3 (amended): an event with a truthy error field is terminal: exactly
one entry is appended, the connection is released, streaming ends, and any
further event on the released connection leaves the state unchanged. The
appended entry has `kind=error` with payload the first truthy of
data/message/error only when the step field matches none of the
content-classified steps (as in `{error:"rate limited"}`). -/
theorem C3_error_event_terminal (st : AppState) (parsed : JSValue)
    (hopen : st.esOpen = true)
    (herr : (parsed.getField "error").truthy = true) :
    (onmessageApp st (some parsed)).messages
        = st.messages ++ [classifyApp parsed] ∧
    (onmessageApp st (some parsed)).esOpen = false ∧
    (onmessageApp st (some parsed)).streaming = false ∧
    (∀ ev, onmessageApp (onmessageApp st (some parsed)) ev
        = onmessageApp st (some parsed)) ∧
    ((mdStep (parsed.getField "step") = false ∧
      listStep (parsed.getField "step") = false ∧
      (parsed.getField "step").sEq "jobs_fetched" = false) →
      (classifyApp parsed).type = .error ∧
      (classifyApp parsed).content
        = jsOr (parsed.getField "data")
            (jsOr (parsed.getField "message") (parsed.getField "error"))) := by
  have hv : parsed ≠ .null := by
    intro hc
    rw [hc] at herr
    simp [JSValue.getField, JSValue.truthy] at herr
  have happ : onmessageApp st (some parsed) = applyParsedApp st parsed :=
    onmessage_open_some st parsed hopen hv
  have hterm : ((parsed.getField "step").sEq "complete"
      || (parsed.getField "error").truthy) = true := by
    simp [herr]
  have heq := applyParsed_terminal st parsed hterm
  refine ⟨?_, ?_, ?_, ?_, ?_⟩
  · rw [happ, heq]
  · rw [happ, heq]
  · rw [happ, heq]
  · intro ev
    apply onmessage_closed
    rw [happ, heq]
  · rintro ⟨h1, h2, h3⟩
    refine ⟨?_, ?_⟩ <;> simp [classifyApp, h1, h2, h3, herr]

/-- C3 witness: Scenario D, `{error:"rate limited"}` from an open stream. -/
theorem C3_error_event_terminal_witness :
    (onmessageApp openSt (some rateEv)).messages.map Msg.content
        = [JSValue.str "rate limited"] ∧
    (onmessageApp openSt (some rateEv)).esOpen = false ∧
    (classifyApp rateEv).type = .error := by
  have h := C3_error_event_terminal openSt rateEv rfl rfl
  refine ⟨?_, h.2.1, (h.2.2.2.2 ⟨rfl, rfl, rfl⟩).1⟩
  rw [h.1]
  rfl

/-- C5 counterexample: a `jobs_fetched` event whose data mixes a record and
the number 5 stores the RAW two-element array as the table payload: the
non-record element is not dropped. -/
theorem C5_counterexample :
    (classifyApp jobsEvMixed).content = .arr [engineerRec, .num 5] ∧
    (classifyApp jobsEvMixed).content ≠ .arr [engineerRec] := by
  refine ⟨rfl, fun h => ?_⟩
  rw [show (classifyApp jobsEvMixed).content
      = JSValue.arr [engineerRec, .num 5] from rfl] at h
  injection h with h2
  simp at h2

/-- C5 (amended): a `jobs_fetched` event yields a table (`jobs`) entry whose
payload is the raw data field (first truthy of data/message/error) with no
validation: non-record elements are kept. The lenient defaulting happens
only at export: `Array.join` renders missing fields of a record as empty
strings, so Scenario B's record flattens with empty location, salary, etc. -/
theorem C5_jobs_lenient_at_export :
    (∀ parsed : JSValue,
      (parsed.getField "step").sEq "jobs_fetched" = true →
      (classifyApp parsed).type = .jobs ∧
      (classifyApp parsed).content
        = jsOr (parsed.getField "data")
            (jsOr (parsed.getField "message") (parsed.getField "error"))) ∧
    getAnalysisText [classifyApp jobsEv1]
      = some ("jobs_fetched:\n" ++ tableHeader ++
          "\nEngineer | Acme |  |  |  |  | ") := by
  constructor
  · intro parsed hstep
    have hstr := (sEq_iff _ "jobs_fetched").mp hstep
    have hmd : mdStep (parsed.getField "step") = false := by
      rw [hstr]
      rfl
    have hls : listStep (parsed.getField "step") = false := by
      rw [hstr]
      rfl
    refine ⟨?_, ?_⟩ <;> simp [classifyApp, hmd, hls, hstep]
  · rfl

/-- C5 witness: Scenario B's event classifies as a table entry carrying the
raw one-record array. -/
theorem C5_jobs_lenient_at_export_witness :
    (classifyApp jobsEv1).type = .jobs ∧
    (classifyApp jobsEv1).content = .arr [engineerRec] := by
  have h := C5_jobs_lenient_at_export.1 jobsEv1 rfl
  exact ⟨h.1, h.2⟩

/-- C9: the progress position is partial: with a non-empty `progress` whose
most recent step key matches no catalog entry, `currentStepIdx` is `-1`
(JavaScript `findIndex` misses), and with empty `progress` it defaults to
`0`. -/
theorem C9_progress_position_partial :
    currentStepIdx [] = 0 ∧
    (∀ (p : List JSValue) (last : JSValue),
      p.getLast? = some last →
      (∀ pair ∈ STEPS, sEq last pair.1 = false) →
      currentStepIdx p = -1) := by
  refine ⟨rfl, ?_⟩
  intro p last hlast hnone
  unfold currentStepIdx
  rw [hlast]
  exact findIndexJS_none _ STEPS hnone

/-- C9 witness: an unknown most-recent step gives position `-1`. -/
theorem C9_progress_position_partial_witness :
    currentStepIdx [JSValue.str "zzz"] = -1 :=
  C9_progress_position_partial.2 [JSValue.str "zzz"] (JSValue.str "zzz")
    rfl (by decide)

/-- C6: the timeline is append-only: an arbitrary delivered event sequence
only ever appends (existing entries are never modified, reordered,
deduplicated or removed), and a sequence of valid non-terminal events
delivered on an open connection appends exactly one classified entry per
event in exact receipt order, so entry positions are strictly increasing in
receipt order. -/
theorem C6_timeline_append_only :
    (∀ (st : AppState) (evs : List (Option JSValue)),
      ∃ t, (processEvents st evs).messages = st.messages ++ t) ∧
    (∀ (st : AppState) (vs : List JSValue),
      st.esOpen = true →
      (∀ v ∈ vs, v ≠ .null ∧
        (v.getField "step").sEq "complete" = false ∧
        (v.getField "error").truthy = false) →
      (processEvents st (vs.map some)).messages
        = st.messages ++ vs.map classifyApp) := by
  constructor
  · intro st evs
    induction evs generalizing st with
    | nil => exact ⟨[], by simp [processEvents]⟩
    | cons e es ih =>
        obtain ⟨t1, h1⟩ := onmessage_messages_tail st e
        obtain ⟨t2, h2⟩ := ih (onmessageApp st e)
        refine ⟨t1 ++ t2, ?_⟩
        have hr : processEvents st (e :: es)
            = processEvents (onmessageApp st e) es := rfl
        rw [hr, h2, h1, List.append_assoc]
  · intro st vs
    induction vs generalizing st with
    | nil =>
        intro _ _
        simp [processEvents]
    | cons v vs ih =>
        intro hopen hvs
        have hv := hvs v (by simp)
        have hstep : onmessageApp st (some v)
            = { st with messages := st.messages ++ [classifyApp v],
                        progress := updateProgress st.progress
                          (v.getField "step") } := by
          rw [onmessage_open_some st v hopen hv.1]
          exact applyParsed_nonterminal st v hv.2.1 hv.2.2
        have hopen' : (onmessageApp st (some v)).esOpen = true := by
          rw [hstep]
          exact hopen
        have hrec : processEvents st ((v :: vs).map some)
            = processEvents (onmessageApp st (some v)) (vs.map some) := rfl
        rw [hrec, ih (onmessageApp st (some v)) hopen'
          (fun w hw => hvs w (by simp [hw])), hstep]
        simp

/-- C6 witness: two valid non-terminal events append their two classified
entries in receipt order. -/
theorem C6_timeline_append_only_witness :
    (processEvents openSt
        ([JSValue.obj [("message", .str "Starting")],
          JSValue.obj [("step", .str "extracting_skills"),
            ("message", .str "x")]].map some)).messages.map Msg.content
      = [JSValue.str "Starting", JSValue.str "x"] := by
  have hvs : ∀ v ∈ [JSValue.obj [("message", .str "Starting")],
      JSValue.obj [("step", .str "extracting_skills"),
        ("message", .str "x")]], v ≠ JSValue.null ∧
      (v.getField "step").sEq "complete" = false ∧
      (v.getField "error").truthy = false := by
    intro v hv
    simp only [List.mem_cons, List.mem_singleton, List.not_mem_nil,
      or_false] at hv
    rcases hv with h1 | h1 <;> subst h1 <;>
      exact ⟨fun hc => JSValue.noConfusion hc, rfl, rfl⟩
  have h := C6_timeline_append_only.2 openSt
    [JSValue.obj [("message", .str "Starting")],
     JSValue.obj [("step", .str "extracting_skills"), ("message", .str "x")]]
    rfl hvs
  rw [h]
  rfl

theorem getAnalysisText_singleton (m : Msg) (s : String)
    (h : flattenMsg m = some s) : getAnalysisText [m] = some s := by
  unfold getAnalysisText
  rw [List.mapM_cons, h, List.mapM_nil]
  rfl

theorem mapM_flatten_ne_nil (m : Msg) (ms : List Msg) (l : List String)
    (h : (m :: ms).mapM flattenMsg = some l) : l ≠ [] := by
  rw [List.mapM_cons] at h
  cases hf : flattenMsg m with
  | none =>
      rw [hf] at h
      simp at h
  | some s =>
      rw [hf] at h
      cases hrest : ms.mapM flattenMsg with
      | none =>
          rw [hrest] at h
          simp at h
      | some ls =>
          rw [hrest] at h
          simp at h
          simp [← h]

/-- C8 counterexample: a `jobs_fetched` event with an empty data array
classifies as a table entry, but its flattened form falls through to the
default text branch (`"jobs_fetched: "`): no header row and no table format,
contradicting the claimed per-kind table formatting. -/
theorem C8_counterexample :
    getAnalysisText [classifyApp (.obj [("step", .str "jobs_fetched"),
        ("data", .arr [])])] = some "jobs_fetched: " ∧
    some "jobs_fetched: "
      ≠ some ("jobs_fetched:\n" ++ tableHeader ++ "\n") :=
  ⟨rfl, by decide⟩

/-- C8 (amended): `getAnalysisText` is a pure deterministic function of the
timeline alone (equal `messages` give equal output; phase flags are never
inspected); entries flatten in timeline order, joined by the fixed separator
`"\n\n---\n\n"`; per kind: markdown is stripped of the six markup characters
and trimmed; a list entry is its step key, a colon, and one bullet line per
item; a table entry whose payload is non-empty and starts with a record
flattens to the step key, the fixed header row, and one `" | "`-joined row
per element in original order (other table entries fall through to the text
format, as the counterexample shows); an error entry is prefixed
`"Error: "`; a text entry is its step key, `": "`, and the coerced
content. -/
theorem C8_flatten_format :
    (∀ st1 st2 : AppState, st1.messages = st2.messages →
      getAnalysisTextState st1 = getAnalysisTextState st2) ∧
    (∀ (ms1 ms2 : List Msg) (t1 t2 : String),
      getAnalysisText ms1 = some t1 → getAnalysisText ms2 = some t2 →
      ms1 ≠ [] → ms2 ≠ [] →
      getAnalysisText (ms1 ++ ms2) = some (t1 ++ flatSep ++ t2)) ∧
    (∀ (stp : JSValue) (s : String),
      getAnalysisText [⟨.markdown, stp, .str s⟩]
        = some (jsTrim (stripMd s))) ∧
    (∀ (k : String) (items : List JSValue), k ≠ "" →
      getAnalysisText [⟨.list, .str k, .arr items⟩]
        = some (k ++ ":\n" ++
            joinStrs "\n" (items.map (fun item => "- " ++ jsToStr item)))) ∧
    (∀ (j : JSValue) (js : List JSValue) (rows : List String),
      j.typeofObject = true →
      (j :: js).mapM rowOfJob = some rows →
      getAnalysisText [⟨.jobs, .str "jobs_fetched", .arr (j :: js)⟩]
        = some ("jobs_fetched:\n" ++ tableHeader ++ "\n" ++
            joinStrs "\n" rows)) ∧
    (∀ c : JSValue, getAnalysisText [⟨.error, .undefined, c⟩]
        = some ("Error: " ++ jsToStr c)) ∧
    (∀ (k : String) (c : JSValue), k ≠ "" → k ≠ "jobs_fetched" →
      getAnalysisText [⟨.text, .str k, c⟩]
        = some (k ++ ": " ++ jsToStr c)) := by
  refine ⟨?_, ?_, ?_, ?_, ?_, ?_, ?_⟩
  · intro st1 st2 h
    simp [getAnalysisTextState, h]
  · intro ms1 ms2 t1 t2 h1 h2 hne1 hne2
    obtain ⟨m1, ms1', rfl⟩ : ∃ a l, ms1 = a :: l := by
      cases ms1 with
      | nil => exact absurd rfl hne1
      | cons a l => exact ⟨a, l, rfl⟩
    obtain ⟨m2, ms2', rfl⟩ : ∃ a l, ms2 = a :: l := by
      cases ms2 with
      | nil => exact absurd rfl hne2
      | cons a l => exact ⟨a, l, rfl⟩
    unfold getAnalysisText at h1 h2 ⊢
    cases hm1 : (m1 :: ms1').mapM flattenMsg with
    | none =>
        rw [hm1] at h1
        simp at h1
    | some l1 =>
        cases hm2 : (m2 :: ms2').mapM flattenMsg with
        | none =>
            rw [hm2] at h2
            simp at h2
        | some l2 =>
            rw [hm1] at h1
            rw [hm2] at h2
            simp at h1 h2
            have hl1 := mapM_flatten_ne_nil _ _ _ hm1
            have hl2 := mapM_flatten_ne_nil _ _ _ hm2
            rw [List.mapM_append, hm1, hm2]
            simp
            rw [joinStrs_append flatSep l1 l2 hl1 hl2, h1, h2]
  · intro stp s
    rfl
  · intro k items hk
    have ht : (JSValue.str k).truthy = true := by
      simp [JSValue.truthy, hk]
    apply getAnalysisText_singleton
    simp [flattenMsg, ht, jsToStr, String.append_assoc]
  · intro j js rows hj hrows
    have hcond : tableCond ⟨.jobs, .str "jobs_fetched", .arr (j :: js)⟩
        = true := by
      simp [tableCond, JSValue.sEq, hj]
    apply getAnalysisText_singleton
    simp only [flattenMsg, hcond]
    rw [hrows]
    simp [jsToStr, JSValue.truthy, String.append_assoc]
  · intro c
    rfl
  · intro k c hk hk2
    have ht : (JSValue.str k).truthy = true := by
      simp [JSValue.truthy, hk]
    have hsq : (JSValue.str k).sEq "jobs_fetched" = false := by
      simp [JSValue.sEq, hk2]
    apply getAnalysisText_singleton
    simp [flattenMsg, tableCond, ht, hsq, jsToStr, String.append_assoc]

/-- C8 witness: Scenario A's list entry flattens to its step key and two
bullet lines. -/
theorem C8_flatten_format_witness :
    getAnalysisText [⟨.list, .str "skills_extracted",
        .arr [.str "Python", .str "SQL"]⟩]
      = some "skills_extracted:\n- Python\n- SQL" := by
  have h := C8_flatten_format.2.2.2.1 "skills_extracted"
    [JSValue.str "Python", JSValue.str "SQL"] (by decide)
  rw [h]
  rfl

/-- C10: submit with blank (empty or whitespace-only) input is a no-op: no
job-creation request is issued and every component of the state (field,
submitted, streaming, timeline, progress, connection) is unchanged. -/
theorem C10_blank_submit_noop (st : AppState) (post : PostResult)
    (h : jsTrim st.curriculum = "") :
    handleSubmit st post = (st, false) := by
  simp [handleSubmit, h]

/-- C10 witness: whitespace-only input. -/
theorem C10_blank_submit_noop_witness :
    handleSubmit { initApp with curriculum := "   " } (.resp 200)
      = ({ initApp with curriculum := "   " }, false) :=
  C10_blank_submit_noop _ _ (by decide)

end JobAnalyzer
